import Mathlib

/-!
Shallow embedding of the git-top-autor-extension core pipeline:
the blame-output line parser (src/blameParser.ts, BlameParser),
the per-author metrics aggregator (src/metrics.ts, MetricsCalculator),
the fingerprint-keyed result cache (src/cache.ts, ContributorCache),
and the orchestrating entry points (src/extension.ts, updateContributors
and showContributors).

Strings are modelled through their character lists. External effects
(filesystem stat, the md5 digest, the git process output, the clock)
are passed in as explicit inputs, mirroring how the source treats them
as opaque data.
-/

namespace TopContributor

/-- Character test modelling the whitespace class used by JavaScript
String.trim for the inputs that occur here. -/
def jsWhite (c : Char) : Bool :=
  c == ' ' || c == '\t' || c == '\n' || c == '\r' ||
  c == Char.ofNat 11 || c == Char.ofNat 12

/-- Models JavaScript s.trim() === '' (equivalently !s.trim()): every
character of the string is whitespace. -/
def isBlankStr (s : String) : Bool :=
  s.data.all jsWhite

/-- Models JavaScript s.trim(): drop whitespace from both ends. -/
def trimStr (s : String) : String :=
  String.mk (((s.data.dropWhile jsWhite).reverse.dropWhile jsWhite).reverse)

/-- Test whether the character list q begins with the character list p. -/
def leadsChars : List Char → List Char → Bool
  | [], _ => true
  | _ :: _, [] => false
  | p :: ps, c :: cs => p == c && leadsChars ps cs

/-- Models JavaScript s.startsWith(pre). -/
def strLeads (pre s : String) : Bool :=
  leadsChars pre.data s.data

/-- Helper predicate: the character list is non-empty and does not
begin with a tab, so a string with this pattern can never lead a
tab-led content line. -/
def headNotTab : List Char → Bool
  | [] => false
  | p :: _ => p != '\t'

/-- Models JavaScript s.endsWith(suf). -/
def strTrails (suf s : String) : Bool :=
  leadsChars suf.data.reverse s.data.reverse

/-- Models JavaScript s.substring(n): drop the first n characters. -/
def strDropStr (s : String) (n : Nat) : String :=
  String.mk (s.data.drop n)

/-- Models JavaScript s.split(sep) for a one-character separator,
working on the character list. -/
def splitCharAux (sep : Char) : List Char → List (List Char)
  | [] => [[]]
  | c :: cs =>
    let r := splitCharAux sep cs
    if c == sep then [] :: r
    else
      match r with
      | [] => [[c]]
      | h :: t => (c :: h) :: t

/-- Models JavaScript s.split(sep) for a one-character separator. -/
def splitChar (sep : Char) (s : String) : List String :=
  (splitCharAux sep s.data).map String.mk

/-- Substring test used for the includes calls in normalizeAuthor. -/
def subChars (p : List Char) : List Char → Bool
  | [] => leadsChars p []
  | c :: rest => leadsChars p (c :: rest) || subChars p rest

/-- Models JavaScript s.includes(pat). -/
def hasSub (s pat : String) : Bool :=
  subChars pat.data s.data

/-- Models JavaScript s.toLowerCase() for the author strings that occur
here. -/
def lowerStr (s : String) : String :=
  String.mk (s.data.map Char.toLower)

/-- Value of a digit run, as accumulated by a base-10 scan. -/
def digitsVal (ds : List Char) : Nat :=
  ds.foldl (fun n c => n * 10 + (c.toNat - 48)) 0

/-- Models JavaScript parseInt(s, 10): skip leading whitespace, read an
optional sign and then the longest digit run; none models NaN. -/
def parseIntJS (s : String) : Option Int :=
  let cs := s.data.dropWhile jsWhite
  match cs with
  | '-' :: rest =>
    let ds := rest.takeWhile Char.isDigit
    if ds.isEmpty then none else some (-(digitsVal ds : Int))
  | '+' :: rest =>
    let ds := rest.takeWhile Char.isDigit
    if ds.isEmpty then none else some ((digitsVal ds : Int))
  | _ =>
    let ds := cs.takeWhile Char.isDigit
    if ds.isEmpty then none else some ((digitsVal ds : Int))

/-- Lowercase hexadecimal digit, the character class of the commit-line
pattern in parseBlameOutput. -/
def isHexLower (c : Char) : Bool :=
  c.isDigit || ('a' ≤ c && c ≤ 'f')

/-- Models line.match of the anchored pattern of 40 lowercase hex digits:
the first 40 characters exist and are all lowercase hex. -/
def isCommitLine (line : String) : Bool :=
  40 ≤ (line.data.takeWhile isHexLower).length

/-- Models the metadata keys skipped by parseBlameOutput. -/
def isSkipMeta (line : String) : Bool :=
  strLeads "author-time " line ||
  strLeads "author-tz " line ||
  strLeads "committer " line ||
  strLeads "committer-mail " line ||
  strLeads "committer-time " line ||
  strLeads "committer-tz " line ||
  strLeads "summary " line ||
  strLeads "boundary" line ||
  strLeads "filename " line ||
  strLeads "previous " line

/-- Models the author-mail cleanup email.replace of a leading angle
bracket and a trailing angle bracket. -/
def stripAngles (s : String) : String :=
  let s1 := if strLeads "<" s then strDropStr s 1 else s
  if strTrails ">" s1 then String.mk s1.data.dropLast else s1

/-- Models BlameParser.normalizeAuthor: trim, map the empty result to
Unknown, map uncommitted or external markers to the sentinel label. -/
def normalizeAuthor (author : String) : String :=
  let normalized := trimStr author
  if normalized = "" then "Unknown"
  else
    let lower := lowerStr normalized
    if hasSub lower "not committed yet" || hasSub lower "external file" then
      "not commited yet"
    else normalized

/-- Record produced by the parser: src/blameParser.ts BlameLineData. -/
structure BlameLineData where
  author : String
  lineNumber : Int
  content : String
deriving DecidableEq, Repr

/-- Mutable locals of the parseBlameOutput loop. The line number is an
Option Int so that the NaN that JavaScript parseInt can produce is
modelled as none. -/
structure PState where
  currentCommit : String
  currentAuthor : String
  currentLineNumber : Option Int
  lineIndex : Nat
deriving DecidableEq, Repr

/-- Initial loop state of parseBlameOutput. -/
def initPState : PState :=
  { currentCommit := "", currentAuthor := "", currentLineNumber := some 0, lineIndex := 0 }

/-- One iteration of the parseBlameOutput loop over a single raw line,
mirroring the branch cascade of the source: skip blank lines, read a
commit header, read author and author-mail, skip other metadata, and
accept a tab-led content line only when the tracked author is non-empty
and the tracked line number is positive and within the file bound. -/
def step (nLines : Nat) (acc : PState × List BlameLineData) (line : String) :
    PState × List BlameLineData :=
  let st := acc.1
  let result := acc.2
  if isBlankStr line then (st, result)
  else if isCommitLine line then
    let parts := splitChar ' ' line
    ({ st with
        currentCommit := parts.headD ""
        currentLineNumber := parseIntJS (parts.getD 2 "undefined") }, result)
  else if strLeads "author " line then
    ({ st with currentAuthor := strDropStr line 7 }, result)
  else if strLeads "author-mail " line then
    (if st.currentAuthor = "" then
      { st with currentAuthor := stripAngles (strDropStr line 12) }
     else st, result)
  else if isSkipMeta line then (st, result)
  else if strLeads "\t" line then
    let content := strDropStr line 1
    let result :=
      if st.currentAuthor ≠ "" then
        match st.currentLineNumber with
        | some n =>
          if 0 < n ∧ n ≤ (nLines : Int) then
            result ++ [{ author := normalizeAuthor st.currentAuthor,
                         lineNumber := n, content := content }]
          else result
        | none => result
      else result
    ({ st with currentAuthor := "", currentLineNumber := some 0,
               lineIndex := st.lineIndex + 1 }, result)
  else (st, result)

/-- Main loop of BlameParser.parseBlameOutput, before the untracked-file
fallback. -/
def parseLoop (blameOutput fileContent : String) : List BlameLineData :=
  let lines := splitChar '\n' blameOutput
  let fileLines := splitChar '\n' fileContent
  (lines.foldl (step fileLines.length) (initPState, [])).2

/-- Models BlameParser.parseBlameOutput: run the loop, then, when no
record was produced and the current content is not whitespace-only,
synthesize one record per content line under the uncommitted sentinel. -/
def parseBlameOutput (blameOutput fileContent : String) : List BlameLineData :=
  let result := parseLoop blameOutput fileContent
  if result.isEmpty && !(isBlankStr fileContent) then
    (splitChar '\n' fileContent).enum.map
      (fun p => { author := "not commited yet",
                  lineNumber := ((p.1 + 1 : Nat) : Int), content := p.2 })
  else result

/-- Per-author result row: src/metrics.ts ContributorMetrics. -/
structure ContributorMetrics where
  author : String
  lines : Nat
  characters : Nat
  percentage : Nat
deriving DecidableEq, Repr

/-- Models MetricsCalculator.isBlankLine: content.trim().length === 0. -/
def isBlankLine (content : String) : Bool :=
  isBlankStr content

/-- Count value of a row under the active count mode, as selected by
the countMode comparisons in the source. -/
def cVal (countMode : String) (m : ContributorMetrics) : Nat :=
  if countMode = "characters" then m.characters else m.lines

/-- Descending-by-count ordering used when sorting the metrics array. -/
def contribLE (countMode : String) (a b : ContributorMetrics) : Prop :=
  cVal countMode b ≤ cVal countMode a

instance (countMode : String) : DecidableRel (contribLE countMode) :=
  fun _ _ => Nat.decLe _ _

instance (countMode : String) : IsTotal ContributorMetrics (contribLE countMode) :=
  ⟨fun a b => (Nat.le_total (cVal countMode b) (cVal countMode a))⟩

instance (countMode : String) : IsTrans ContributorMetrics (contribLE countMode) :=
  ⟨fun _ _ _ hab hbc => Nat.le_trans hbc hab⟩

/-- Models one authorStats Map update of the aggregation loop: a
JavaScript Map keeps the first-insertion position of a key, so an
existing author row is updated in place and a new author is appended. -/
def upsert (stats : List (String × Nat × Nat)) (author : String) (chars : Nat) :
    List (String × Nat × Nat) :=
  match stats with
  | [] => [(author, 1, chars)]
  | (a, l, c) :: rest =>
    if a = author then (a, l + 1, c + chars) :: rest
    else (a, l, c) :: upsert rest author chars

/-- Integer form of Math.round((countValue / totalValue) * 100) for
natural inputs with 0 < t, used for the percentage field; the lemma
jsRoundPct_eq_round below proves it equal to round of the exact
rational. -/
def jsRoundPct (c t : Nat) : Nat :=
  (200 * c + t) / (2 * t)

/-- Models the grouping loop of calculateContributions: fold the blame
records into the per-author (lines, characters) Map, skipping blank
content when ignoreBlankLines is set. -/
def authorStatsOf (ignoreBlankLines : Bool) (blameData : List BlameLineData) :
    List (String × Nat × Nat) :=
  blameData.foldl
    (fun stats ld =>
      if ignoreBlankLines && isBlankLine ld.content then stats
      else upsert stats ld.author ld.content.length) []

/-- Models MetricsCalculator.calculateContributions with the two
configuration reads (countMode, ignoreBlankLines) passed as arguments:
group by author, total, compute rounded percentages, sort descending by
the active count value (JavaScript sort is stable; Mathlib
insertionSort with this ordering is the same stable sort). -/
def calculateContributions (countMode : String) (ignoreBlankLines : Bool)
    (blameData : List BlameLineData) : List ContributorMetrics :=
  if blameData.isEmpty then []
  else
    let authorStats := authorStatsOf ignoreBlankLines blameData
    let totalLines := (authorStats.map (fun s => s.2.1)).sum
    let totalCharacters := (authorStats.map (fun s => s.2.2)).sum
    let metrics := authorStats.map (fun s =>
      let countValue := if countMode = "characters" then s.2.2 else s.2.1
      let totalValue := if countMode = "characters" then totalCharacters else totalLines
      { author := s.1, lines := s.2.1, characters := s.2.2,
        percentage := if 0 < totalValue then jsRoundPct countValue totalValue else 0 })
    List.insertionSort (contribLE countMode) metrics

/-- Grand total of the active count value over the grouped author
rows, the totalValue selected inside calculateContributions. -/
def totalValueOf (countMode : String) (ignoreBlankLines : Bool)
    (blameData : List BlameLineData) : Nat :=
  if countMode = "characters" then
    ((authorStatsOf ignoreBlankLines blameData).map (fun s => s.2.2)).sum
  else ((authorStatsOf ignoreBlankLines blameData).map (fun s => s.2.1)).sum

/-- Cached value plus bookkeeping: src/cache.ts CacheEntry. -/
structure CacheEntry where
  data : List ContributorMetrics
  timestamp : Int
  ttl : Int
deriving DecidableEq, Repr

/-- The ContributorCache Map, modelled as an insertion-ordered
association list, matching JavaScript Map iteration order. -/
abbrev Cache := List (String × CacheEntry)

/-- Default time-to-live of a cache entry, milliseconds. -/
def defaultTTL : Int := 30000

/-- Maximum number of live cache entries. -/
def maxCacheSize : Nat := 100

/-- Models Map.get on the association list. -/
def mapFind : Cache → String → Option CacheEntry
  | [], _ => none
  | (k', e) :: rest, k => if k' = k then some e else mapFind rest k

/-- Models Map.set on the association list: update in place when the
key exists, append otherwise. -/
def mapSet : Cache → String → CacheEntry → Cache
  | [], k, e => [(k, e)]
  | (k', e') :: rest, k, e =>
    if k' = k then (k, e) :: rest else (k', e') :: mapSet rest k e

/-- Models Map.delete on the association list. -/
def mapDelete (c : Cache) (k : String) : Cache :=
  c.filter (fun e => !(e.1 == k))

/-- Models ContributorCache.get: a miss when absent, eager eviction and
a miss when the entry has outlived its ttl, otherwise the stored data.
Returns the possibly-updated store alongside the lookup result. -/
def cacheGet (c : Cache) (key : String) (now : Int) :
    Option (List ContributorMetrics) × Cache :=
  match mapFind c key with
  | none => (none, c)
  | some entry =>
    if entry.ttl < now - entry.timestamp then (none, mapDelete c key)
    else (some entry.data, c)

/-- Models ContributorCache.set: when the live count has reached the
bound, first evict the oldest-inserted entry (the first key of the
Map), then insert. -/
def cacheSet (c : Cache) (key : String) (data : List ContributorMetrics)
    (ttl : Int) (now : Int) : Cache :=
  let c1 :=
    if maxCacheSize ≤ c.length then
      match c with
      | [] => []
      | _ :: rest => rest
    else c
  mapSet c1 key { data := data, timestamp := now, ttl := ttl }

/-- Models ContributorCache.invalidate: remove every entry whose key
starts with the path followed by the separator colon. -/
def cacheInvalidate (c : Cache) (filePath : String) : Cache :=
  c.filter (fun e => !(strLeads (filePath ++ ":") e.1))

/-- Models ContributorCache.cleanup: drop every expired entry. -/
def cacheCleanup (c : Cache) (now : Int) : Cache :=
  c.filter (fun e => !(e.2.ttl < now - e.2.timestamp))

/-- Models ContributorCache.getCacheKey, with the filesystem stat
result and the md5 digest passed in: when stat succeeds the key is
path, mtime, size and the first 8 digest characters, otherwise path,
the literal content marker, and the full digest. -/
def getCacheKey (md5hex : String → String) (stat : Option (Int × Int))
    (filePath fileContent : String) : String :=
  match stat with
  | some (mtime, size) =>
    filePath ++ ":" ++ toString mtime ++ ":" ++ toString size ++ ":" ++
      String.mk ((md5hex fileContent).data.take 8)
  | none => filePath ++ ":content:" ++ md5hex fileContent

/-- Environment of one pipeline request: the observable answers of the
host, filesystem, git process and clock during that request. -/
structure Env where
  isInRepo : Bool
  stat : Option (Int × Int)
  blameOutput : String
  countMode : String
  ignoreBlankLines : Bool
  now : Int

/-- Resolved configuration read by updateContributors. -/
structure Config where
  maxFileSizeKB : Nat

/-- Observable outcome of one pipeline request. -/
inductive PipelineOutcome where
  | fileTooLarge (actualKB : Nat) (limitKB : Nat)
  | notInRepository
  | metrics (ms : List ContributorMetrics)
deriving DecidableEq, Repr

/-- Result of one pipeline request: outcome, cache state after the
request, and how many git blame invocations were made. -/
structure RunResult where
  outcome : PipelineOutcome
  cache : Cache
  historyCalls : Nat
deriving DecidableEq, Repr

/-- Models updateContributors in src/extension.ts: size gate, repo
gate, cache lookup, then blame, aggregation and cache store on a miss.
The size comparison fileSizeKB > maxSizeKB over exact rationals is
bytes > maxSizeKB * 1024, and the rounded KB figure of the tooltip is
Math.round(bytes / 1024). -/
def updateContributors (md5hex : String → String) (env : Env) (cfg : Config)
    (cache : Cache) (filePath fileContent : String) : RunResult :=
  let fileSizeBytes := fileContent.utf8ByteSize
  if cfg.maxFileSizeKB * 1024 < fileSizeBytes then
    { outcome := .fileTooLarge ((fileSizeBytes + 512) / 1024) cfg.maxFileSizeKB,
      cache := cache, historyCalls := 0 }
  else if !env.isInRepo then
    { outcome := .notInRepository, cache := cache, historyCalls := 0 }
  else
    let cacheKey := getCacheKey md5hex env.stat filePath fileContent
    match cacheGet cache cacheKey env.now with
    | (some cachedResult, cache2) =>
      { outcome := .metrics cachedResult, cache := cache2, historyCalls := 0 }
    | (none, cache2) =>
      let blameData := parseBlameOutput env.blameOutput fileContent
      let contributors := calculateContributions env.countMode env.ignoreBlankLines blameData
      { outcome := .metrics contributors,
        cache := cacheSet cache2 cacheKey contributors defaultTTL env.now,
        historyCalls := 1 }

/-- Models the contributor-computation part of showContributors in
src/extension.ts: repo gate, cache lookup, then blame, aggregation and
cache store on a miss. The source performs no file-size gate on this
path. -/
def showContributors (md5hex : String → String) (env : Env)
    (cache : Cache) (filePath fileContent : String) : RunResult :=
  if !env.isInRepo then
    { outcome := .notInRepository, cache := cache, historyCalls := 0 }
  else
    let cacheKey := getCacheKey md5hex env.stat filePath fileContent
    match cacheGet cache cacheKey env.now with
    | (some cachedResult, cache2) =>
      { outcome := .metrics cachedResult, cache := cache2, historyCalls := 0 }
    | (none, cache2) =>
      let blameData := parseBlameOutput env.blameOutput fileContent
      let contributors := calculateContributions env.countMode env.ignoreBlankLines blameData
      { outcome := .metrics contributors,
        cache := cacheSet cache2 cacheKey contributors defaultTTL env.now,
        historyCalls := 1 }

/-- Cache states reachable from the empty cache through the operations
of ContributorCache. -/
inductive Reachable : Cache → Prop
  | empty : Reachable []
  | get {c : Cache} (k : String) (now : Int) :
      Reachable c → Reachable (cacheGet c k now).2
  | set {c : Cache} (k : String) (d : List ContributorMetrics) (ttl now : Int) :
      Reachable c → Reachable (cacheSet c k d ttl now)
  | invalidate {c : Cache} (p : String) :
      Reachable c → Reachable (cacheInvalidate c p)
  | cleanup {c : Cache} (now : Int) :
      Reachable c → Reachable (cacheCleanup c now)

/-! Helper lemmas about the string primitives. -/

theorem strData_append (a b : String) : (a ++ b).data = a.data ++ b.data := by
  cases a
  cases b
  rfl

theorem leadsChars_self : ∀ xs : List Char, leadsChars xs xs = true := by
  intro xs
  induction xs with
  | nil => rfl
  | cons c cs ih => simp [leadsChars, ih]

theorem leadsChars_append_of (xs : List Char) :
    ∀ (ys zs : List Char), leadsChars xs ys = true → leadsChars xs (ys ++ zs) = true := by
  induction xs with
  | nil => intro ys zs _; rfl
  | cons p ps ih =>
    intro ys zs h
    cases ys with
    | nil => exact absurd h (by simp [leadsChars])
    | cons c cs =>
      simp only [leadsChars, Bool.and_eq_true] at h
      simp [leadsChars, h.1, ih cs zs h.2]

theorem strLeads_self (s : String) : strLeads s s = true :=
  leadsChars_self s.data

theorem strLeads_extend (p s t : String) (h : strLeads p s = true) :
    strLeads p (s ++ t) = true := by
  unfold strLeads at *
  rw [strData_append]
  exact leadsChars_append_of _ _ _ h

theorem leadsChars_append_both (xs : List Char) :
    ∀ (as bs : List Char), leadsChars (xs ++ as) (xs ++ bs) = leadsChars as bs := by
  induction xs with
  | nil => intro as bs; rfl
  | cons c cs ih => intro as bs; simp [leadsChars, ih]

/-- Every fingerprint produced for a path begins with that path
followed by the separator colon. -/
theorem getCacheKey_leads (md5hex : String → String) (stat : Option (Int × Int))
    (filePath fileContent : String) :
    strLeads (filePath ++ ":") (getCacheKey md5hex stat filePath fileContent) = true := by
  unfold getCacheKey
  cases stat with
  | none =>
    unfold strLeads
    rw [strData_append, strData_append, strData_append, List.append_assoc]
    rw [show (":" : String).data = [':'] from rfl,
        show (":content:" : String).data = ':' :: "content:".data from rfl]
    rw [leadsChars_append_both]
    rfl
  | some ms =>
    obtain ⟨mtime, size⟩ := ms
    apply strLeads_extend
    apply strLeads_extend
    apply strLeads_extend
    apply strLeads_extend
    apply strLeads_extend
    exact strLeads_self _

/-! Helper lemmas about the cache operations. -/

theorem mapFind_mapSet_self (c : Cache) (k : String) (e : CacheEntry) :
    mapFind (mapSet c k e) k = some e := by
  induction c with
  | nil => simp [mapSet, mapFind]
  | cons he rest ih =>
    obtain ⟨k', e'⟩ := he
    by_cases h : k' = k
    · simp [mapSet, h, mapFind]
    · simp [mapSet, h, mapFind, ih]

theorem mapFind_cacheSet_self (c : Cache) (k : String) (d : List ContributorMetrics)
    (ttl now : Int) :
    mapFind (cacheSet c k d ttl now) k = some { data := d, timestamp := now, ttl := ttl } := by
  unfold cacheSet
  exact mapFind_mapSet_self _ _ _

theorem mapSet_length_le (c : Cache) (k : String) (e : CacheEntry) :
    (mapSet c k e).length ≤ c.length + 1 := by
  induction c with
  | nil => simp [mapSet]
  | cons he rest ih =>
    obtain ⟨k', e'⟩ := he
    by_cases h : k' = k
    · simp [mapSet, h]
    · simp only [mapSet, if_neg h, List.length_cons]
      omega

theorem mem_cacheInvalidate {c : Cache} {p : String} {e : String × CacheEntry} :
    e ∈ cacheInvalidate c p ↔ e ∈ c ∧ strLeads (p ++ ":") e.1 = false := by
  unfold cacheInvalidate
  rw [List.mem_filter]
  simp

theorem mapFind_cacheInvalidate_none (c : Cache) (p key : String)
    (hk : strLeads (p ++ ":") key = true) :
    mapFind (cacheInvalidate c p) key = none := by
  induction c with
  | nil => rfl
  | cons he rest ih =>
    obtain ⟨k', e'⟩ := he
    unfold cacheInvalidate at ih ⊢
    rw [List.filter_cons]
    by_cases hkeep : strLeads (p ++ ":") k' = true
    · simp [hkeep, ih]
    · have hne : k' ≠ key := by
        intro hcontra
        rw [hcontra] at hkeep
        exact hkeep hk
      simp only [hkeep, Bool.not_eq_true] at *
      simp [hkeep, mapFind, hne, ih]

/-! Claim C3. -/

/-- C3 (counterexample): the claim that invalidate(p) removes exactly
the entries of path p while entries for other paths remain is false as
stated: the entry whose fingerprint was produced for the different
path "a:b" is removed by invalidate("a"), because removal is by string
comparison on the fingerprint against "a" followed by a colon. -/
theorem invalidate_cross_path :
    cacheInvalidate
        [(getCacheKey (fun _ => "h") none "a:b" "x",
          { data := [], timestamp := 0, ttl := 30000 })] "a" = []
    ∧ ("a:b" : String) ≠ "a" := by
  constructor
  · rfl
  · decide

/-- C3 (amended): invalidate(p) removes exactly the entries whose
fingerprint starts with p followed by the separator colon — in
particular every fingerprint produced for p, regardless of remaining
TTL, so the next lookup for any fingerprint of p misses — while every
entry whose fingerprint does not start with p and the colon remains;
an entry of a different path whose fingerprint happens to extend p
followed by the colon is, however, also removed. -/
theorem invalidate_spec (c : Cache) (p : String) :
    (∀ e ∈ cacheInvalidate c p, strLeads (p ++ ":") e.1 = false ∧ e ∈ c)
    ∧ (∀ e ∈ c, strLeads (p ++ ":") e.1 = false → e ∈ cacheInvalidate c p)
    ∧ (∀ (md5hex : String → String) (stat : Option (Int × Int)) (content : String) (now : Int),
        (cacheGet (cacheInvalidate c p) (getCacheKey md5hex stat p content) now).1 = none) := by
  refine ⟨?_, ?_, ?_⟩
  · intro e he
    exact ⟨(mem_cacheInvalidate.1 he).2, (mem_cacheInvalidate.1 he).1⟩
  · intro e he hlead
    exact mem_cacheInvalidate.2 ⟨he, hlead⟩
  · intro md5hex stat content now
    unfold cacheGet
    rw [mapFind_cacheInvalidate_none c p _ (getCacheKey_leads md5hex stat p content)]

/-- Witness for invalidate_spec: after invalidating path "a" on a
one-entry cache for "a", the lookup of the fingerprint of "a" misses. -/
theorem invalidate_spec_witness :
    (cacheGet
        (cacheInvalidate
          [(getCacheKey (fun _ => "h") none "a" "x",
            { data := [], timestamp := 0, ttl := 30000 })] "a")
        (getCacheKey (fun _ => "h") none "a" "x") 0).1 = none :=
  (invalidate_spec
      [(getCacheKey (fun _ => "h") none "a" "x",
        { data := [], timestamp := 0, ttl := 30000 })] "a").2.2
    (fun _ => "h") none "x" 0

/-! Claim C8. -/

/-- C8: the cache live entry count never exceeds the configured bound
of 100: every cache state reachable through the ContributorCache
operations from the empty cache has at most maxCacheSize entries,
because set first evicts the oldest-inserted entry whenever the count
is at or above the bound. -/
theorem cache_bound {c : Cache} (h : Reachable c) : c.length ≤ maxCacheSize := by
  induction h with
  | empty => simp [maxCacheSize]
  | get k now _ ih =>
    rename_i c' _
    unfold cacheGet
    cases hf : mapFind c' k with
    | none => exact ih
    | some entry =>
      dsimp only
      split
      · calc (mapDelete c' k).length ≤ c'.length := List.length_filter_le _ _
          _ ≤ maxCacheSize := ih
      · exact ih
  | set k d ttl now _ ih =>
    rename_i c' _
    unfold cacheSet
    dsimp only
    split
    · rename_i hlen
      cases c' with
      | nil => simp [mapSet, maxCacheSize]
      | cons e rest =>
        show (mapSet rest k { data := d, timestamp := now, ttl := ttl }).length ≤ maxCacheSize
        have h1 := mapSet_length_le rest k { data := d, timestamp := now, ttl := ttl }
        simp only [List.length_cons] at ih
        omega
    · rename_i hlen
      have h1 := mapSet_length_le c' k { data := d, timestamp := now, ttl := ttl }
      omega
  | invalidate p _ ih =>
    rename_i c' _
    calc (cacheInvalidate c' p).length ≤ c'.length := List.length_filter_le _ _
      _ ≤ maxCacheSize := ih
  | cleanup now _ ih =>
    rename_i c' _
    calc (cacheCleanup c' now).length ≤ c'.length := List.length_filter_le _ _
      _ ≤ maxCacheSize := ih

/-- Witness for cache_bound at a concrete reachable state. -/
theorem cache_bound_witness : (cacheSet [] "k" [] 30000 0).length ≤ maxCacheSize :=
  cache_bound (Reachable.set "k" [] 30000 0 Reachable.empty)

/-! Claim C9. -/

/-- C9 (counterexample): the claim that the size gate holds on every
entry point of the pipeline is false: the showContributors entry point
performs no size check, so content of 1 byte under a configured limit
of 0 KB still triggers a git blame invocation there instead of a
FileTooLarge outcome. -/
theorem size_gate_counterexample :
    (0 : Nat) * 1024 < ("x" : String).utf8ByteSize
    ∧ (showContributors (fun _ => "h")
        { isInRepo := true, stat := none, blameOutput := "", countMode := "lines",
          ignoreBlankLines := false, now := 0 } [] "p" "x").historyCalls = 1 := by
  constructor
  · decide
  · rfl

/-- C9 (amended): on the updateContributors entry point, content whose
byte size exceeds maxFileSizeKB times 1024 short-circuits with a
FileTooLarge outcome carrying the rounded actual KB size and the
limit, leaving the cache untouched and making no git blame invocation;
the showContributors entry point performs no size check. -/
theorem size_gate (md5hex : String → String) (env : Env) (cfg : Config) (cache : Cache)
    (filePath fileContent : String)
    (h : cfg.maxFileSizeKB * 1024 < fileContent.utf8ByteSize) :
    updateContributors md5hex env cfg cache filePath fileContent =
      { outcome := .fileTooLarge ((fileContent.utf8ByteSize + 512) / 1024) cfg.maxFileSizeKB,
        cache := cache, historyCalls := 0 } := by
  unfold updateContributors
  rw [if_pos h]

/-- Witness for size_gate: a 1-byte file under a 0 KB limit yields the
FileTooLarge outcome with no git blame invocation. -/
theorem size_gate_witness :
    updateContributors (fun _ => "h")
        { isInRepo := true, stat := none, blameOutput := "", countMode := "lines",
          ignoreBlankLines := false, now := 0 } { maxFileSizeKB := 0 } [] "p" "x" =
      { outcome := .fileTooLarge ((("x" : String).utf8ByteSize + 512) / 1024) 0,
        cache := [], historyCalls := 0 } :=
  size_gate (fun _ => "h") _ _ _ "p" "x" (by decide)

/-! Claim C4. -/

/-- C4: when the parsing loop yields zero records and the current file
content is not whitespace-only, parseBlameOutput returns exactly one
record per line of the current content, in order, numbered from 1,
all attributed to the uncommitted sentinel label. -/
theorem untracked_fallback (blameOutput fileContent : String)
    (h1 : parseLoop blameOutput fileContent = [])
    (h2 : isBlankStr fileContent = false) :
    parseBlameOutput blameOutput fileContent =
      (splitChar '\n' fileContent).enum.map
        (fun p => { author := "not commited yet",
                    lineNumber := ((p.1 + 1 : Nat) : Int), content := p.2 })
    ∧ (parseBlameOutput blameOutput fileContent).length = (splitChar '\n' fileContent).length := by
  have hmain : parseBlameOutput blameOutput fileContent =
      (splitChar '\n' fileContent).enum.map
        (fun p => { author := "not commited yet",
                    lineNumber := ((p.1 + 1 : Nat) : Int), content := p.2 }) := by
    unfold parseBlameOutput
    rw [h1, h2]
    rfl
  refine ⟨hmain, ?_⟩
  rw [hmain]
  simp

/-- Witness for untracked_fallback: empty blame output over the
one-line content "x". -/
theorem untracked_fallback_witness :
    parseBlameOutput "" "x" =
      (splitChar '\n' "x").enum.map
        (fun p => { author := "not commited yet",
                    lineNumber := ((p.1 + 1 : Nat) : Int), content := p.2 })
    ∧ (parseBlameOutput "" "x").length = (splitChar '\n' "x").length :=
  untracked_fallback "" "x" rfl rfl

/-! Helper lemmas about the parsing step on a tab-led content line. -/

theorem headNotTab_leads (pre : String) (cs : List Char)
    (h : headNotTab pre.data = true) :
    strLeads pre (String.mk ('\t' :: cs)) = false := by
  unfold strLeads
  cases hp : pre.data with
  | nil => rw [hp] at h; exact absurd h (by simp [headNotTab])
  | cons p ps =>
    rw [hp] at h
    have hne : (p == '\t') = false := by
      simpa [headNotTab, bne] using h
    simp [leadsChars, hne]

theorem isBlankStr_tab (content : String) :
    isBlankStr (String.mk ('\t' :: content.data)) = isBlankStr content := by
  have h : jsWhite '\t' = true := rfl
  simp [isBlankStr, List.all_cons, h]

theorem isCommitLine_tab (cs : List Char) :
    isCommitLine (String.mk ('\t' :: cs)) = false := by
  have h : isHexLower '\t' = false := rfl
  simp [isCommitLine, List.takeWhile_cons, h]

theorem isSkipMeta_tab (cs : List Char) :
    isSkipMeta (String.mk ('\t' :: cs)) = false := by
  unfold isSkipMeta
  rw [headNotTab_leads "author-time " cs (by decide),
      headNotTab_leads "author-tz " cs (by decide),
      headNotTab_leads "committer " cs (by decide),
      headNotTab_leads "committer-mail " cs (by decide),
      headNotTab_leads "committer-time " cs (by decide),
      headNotTab_leads "committer-tz " cs (by decide),
      headNotTab_leads "summary " cs (by decide),
      headNotTab_leads "boundary" cs (by decide),
      headNotTab_leads "filename " cs (by decide),
      headNotTab_leads "previous " cs (by decide)]
  rfl

theorem strLeads_tab_self (cs : List Char) :
    strLeads "\t" (String.mk ('\t' :: cs)) = true := rfl

/-! Claim C1. -/

/-- C1 (counterexample): the claim that a well-formed block with valid
author and in-bounds line number whose content line is blank is
accepted is false: the block below has author Alice and line number 1
within the single-line bound of the empty content, yet its content
line, a lone tab standing for a blank line, is skipped by the
whitespace-only early check, so the parser output has no record. -/
theorem blame_blank_content_dropped :
    parseBlameOutput
        "aaaaaaaaaaaaaaaaaaaaaaaaaaaaaaaaaaaaaaaa 1 1 1\nauthor Alice\n\t" "" = []
    ∧ (splitChar '\n' "").length = 1 := by
  constructor
  · rfl
  · rfl

/-- C1 (amended): on a content line, the record is appended to the
parser output if and only if the raw line is not whitespace-only (so
the content after the tab is not blank), the tracked currentAuthor is
non-empty, and the tracked currentLineNumber is a positive integer not
exceeding the line count of the file content; in every other case the
output is returned unchanged, so a failing line is silently dropped
and never fabricated. -/
theorem blame_content_line_accept (nLines : Nat) (st : PState)
    (result : List BlameLineData) (content : String) :
    (step nLines (st, result) (String.mk ('\t' :: content.data))).2 =
      if isBlankStr content = false ∧ st.currentAuthor ≠ "" ∧
          0 < st.currentLineNumber.getD 0 ∧ st.currentLineNumber.getD 0 ≤ (nLines : Int)
      then result ++ [{ author := normalizeAuthor st.currentAuthor,
                        lineNumber := st.currentLineNumber.getD 0,
                        content := content }]
      else result := by
  have hdrop1 : strDropStr (String.mk ('\t' :: content.data)) 1 = content := rfl
  unfold step
  rw [isBlankStr_tab, isCommitLine_tab, isSkipMeta_tab, strLeads_tab_self,
      headNotTab_leads "author " content.data (by decide),
      headNotTab_leads "author-mail " content.data (by decide)]
  by_cases hb : isBlankStr content = true
  · simp [hb]
  · rw [Bool.not_eq_true] at hb
    simp only [hb, Bool.false_eq_true, if_false, if_true, hdrop1]
    by_cases ha : st.currentAuthor = ""
    · simp [ha]
    · cases hn : st.currentLineNumber with
      | none => simp [ha, hn]
      | some n =>
        by_cases hcond : 0 < n ∧ n ≤ (nLines : Int)
        · simp [ha, hn, hcond]
        · simp [ha, hn, hcond]

/-! Claim C10. -/

theorem normalizeAuthor_ne (a : String) : normalizeAuthor a ≠ "" := by
  unfold normalizeAuthor
  by_cases h1 : trimStr a = ""
  · simp [h1]
  · by_cases h2 : (hasSub (lowerStr (trimStr a)) "not committed yet" ||
        hasSub (lowerStr (trimStr a)) "external file") = true
    · simp [h1, h2]
    · simp [h1, h2]

theorem step_preserves (nLines : Nat) (p : PState × List BlameLineData) (line : String)
    (h : ∀ r ∈ p.2, r.author ≠ "" ∧ 1 ≤ r.lineNumber ∧ r.lineNumber ≤ (nLines : Int)) :
    ∀ r ∈ (step nLines p line).2,
      r.author ≠ "" ∧ 1 ≤ r.lineNumber ∧ r.lineNumber ≤ (nLines : Int) := by
  obtain ⟨st, result⟩ := p
  intro r hr
  unfold step at hr
  dsimp only at hr
  split at hr
  · exact h r hr
  split at hr
  · exact h r hr
  split at hr
  · exact h r hr
  split at hr
  · exact h r hr
  split at hr
  · exact h r hr
  split at hr
  · dsimp only at hr
    split at hr
    · split at hr
      · rename_i n hn
        split at hr
        · rename_i hcond
          rcases List.mem_append.1 hr with hmem | hmem
          · exact h r hmem
          · rw [List.mem_singleton] at hmem
            subst hmem
            refine ⟨normalizeAuthor_ne _, ?_, ?_⟩
            · show (1 : Int) ≤ n
              omega
            · show n ≤ (nLines : Int)
              exact hcond.2
        · exact h r hr
      · exact h r hr
    · exact h r hr
  · exact h r hr

theorem parseLoop_invariant (nLines : Nat) (lines : List String) :
    ∀ (p : PState × List BlameLineData),
      (∀ r ∈ p.2, r.author ≠ "" ∧ 1 ≤ r.lineNumber ∧ r.lineNumber ≤ (nLines : Int)) →
      ∀ r ∈ (lines.foldl (step nLines) p).2,
        r.author ≠ "" ∧ 1 ≤ r.lineNumber ∧ r.lineNumber ≤ (nLines : Int) := by
  induction lines with
  | nil => intro p h; simpa using h
  | cons l ls ih =>
    intro p h
    rw [List.foldl_cons]
    exact ih _ (step_preserves nLines p l h)

/-- C10: every record parseBlameOutput outputs, whether from a parsed
blame block or from the untracked-file fallback, has a non-empty
author string and a line number between 1 and the number of lines of
the supplied file content. -/
theorem parse_record_invariant (blameOutput fileContent : String) (r : BlameLineData)
    (hr : r ∈ parseBlameOutput blameOutput fileContent) :
    r.author ≠ "" ∧ 1 ≤ r.lineNumber ∧
      r.lineNumber ≤ ((splitChar '\n' fileContent).length : Int) := by
  unfold parseBlameOutput at hr
  dsimp only at hr
  split at hr
  · obtain ⟨⟨i, content⟩, hmem, rfl⟩ := List.mem_map.1 hr
    have hb := List.mem_enumFrom (by simpa [List.enum] using hmem)
    refine ⟨?_, ?_, ?_⟩
    · dsimp only
      decide
    · dsimp only
      push_cast
      omega
    · dsimp only
      have hlt : i < (splitChar '\n' fileContent).length := by
        rcases hb with ⟨_, h2, _⟩
        omega
      push_cast
      omega
  · simp only [parseLoop] at hr
    exact parseLoop_invariant (splitChar '\n' fileContent).length
      (splitChar '\n' blameOutput) (initPState, []) (by simp) r hr

/-- Witness for parse_record_invariant: the fallback record of the
one-line content "x" has a non-empty author and line number 1. -/
theorem parse_record_invariant_witness :
    ({ author := "not commited yet", lineNumber := 1, content := "x" } :
        BlameLineData).author ≠ "" ∧
      1 ≤ ({ author := "not commited yet", lineNumber := 1, content := "x" } :
        BlameLineData).lineNumber ∧
      ({ author := "not commited yet", lineNumber := 1, content := "x" } :
        BlameLineData).lineNumber ≤ ((splitChar '\n' "x").length : Int) :=
  parse_record_invariant "" "x"
    { author := "not commited yet", lineNumber := 1, content := "x" } (by decide)

/-! Helper lemmas about the aggregation. -/

theorem calc_eq (mode : String) (ign : Bool) (data : List BlameLineData)
    (h : data.isEmpty = false) :
    calculateContributions mode ign data =
      List.insertionSort (contribLE mode)
        ((authorStatsOf ign data).map (fun s =>
          { author := s.1, lines := s.2.1, characters := s.2.2,
            percentage :=
              if 0 < totalValueOf mode ign data
              then jsRoundPct (if mode = "characters" then s.2.2 else s.2.1)
                     (totalValueOf mode ign data)
              else 0 })) := by
  unfold calculateContributions
  rw [h]
  rfl

theorem sumLines_upsert (stats : List (String × Nat × Nat)) (a : String) (ch : Nat) :
    ((upsert stats a ch).map (fun s => s.2.1)).sum
      = (stats.map (fun s => s.2.1)).sum + 1 := by
  induction stats with
  | nil => simp [upsert]
  | cons s rest ih =>
    obtain ⟨a', l, c⟩ := s
    by_cases h : a' = a
    · simp only [upsert, if_pos h, List.map_cons, List.sum_cons]
      omega
    · simp only [upsert, if_neg h, List.map_cons, List.sum_cons, ih]
      omega

theorem sumLines_foldl (ign : Bool) (l : List BlameLineData) :
    ∀ stats : List (String × Nat × Nat),
      ((l.foldl (fun s ld =>
          if ign && isBlankLine ld.content then s
          else upsert s ld.author ld.content.length) stats).map (fun s => s.2.1)).sum
        = (stats.map (fun s => s.2.1)).sum
          + (l.filter (fun ld => !(ign && isBlankLine ld.content))).length := by
  induction l with
  | nil => intro stats; simp
  | cons ld rest ih =>
    intro stats
    rw [List.foldl_cons, List.filter_cons]
    by_cases h : (ign && isBlankLine ld.content) = true
    · rw [if_pos h, ih stats]
      simp [h]
    · rw [if_neg h, ih (upsert stats ld.author ld.content.length), sumLines_upsert]
      have hb : (!(ign && isBlankLine ld.content)) = true := by
        simp only [Bool.not_eq_true']
        exact Bool.not_eq_true _ |>.mp h
      rw [if_pos hb]
      simp only [List.length_cons]
      omega

theorem sumLines_authorStats (ign : Bool) (data : List BlameLineData) :
    ((authorStatsOf ign data).map (fun s => s.2.1)).sum
      = (data.filter (fun ld => !(ign && isBlankLine ld.content))).length := by
  unfold authorStatsOf
  simpa using sumLines_foldl ign data []

theorem length_filter_not (data : List BlameLineData) :
    (data.filter (fun ld => !isBlankLine ld.content)).length
      = data.length - (data.filter (fun ld => isBlankLine ld.content)).length := by
  induction data with
  | nil => rfl
  | cons ld rest ih =>
    have hle := List.length_filter_le (fun ld => isBlankLine ld.content) rest
    by_cases h : isBlankLine ld.content
    · simp [List.filter_cons, h, ih]
    · simp [List.filter_cons, h, ih]
      omega

theorem calc_sum_lines (mode : String) (ign : Bool) (data : List BlameLineData) :
    ((calculateContributions mode ign data).map (fun m => m.lines)).sum
      = (data.filter (fun ld => !(ign && isBlankLine ld.content))).length := by
  by_cases hemp : data.isEmpty = true
  · have h0 : data = [] := by
      cases data
      · rfl
      · exact absurd hemp (by simp)
    subst h0
    simp [calculateContributions]
  · rw [calc_eq mode ign data (Bool.not_eq_true _ |>.mp hemp)]
    rw [((List.perm_insertionSort (contribLE mode) _).map (fun m => m.lines)).sum_eq,
        List.map_map]
    show ((authorStatsOf ign data).map (fun s => s.2.1)).sum = _
    exact sumLines_authorStats ign data

/-! Claim C5. -/

/-- C5: the sum of the lines fields over the aggregated output equals
the input sequence length when ignoreBlankLines is false, and the
input length minus the number of blank content lines when it is true;
the empty input yields the empty sequence. -/
theorem metrics_line_sum :
    (∀ (mode : String) (data : List BlameLineData),
        ((calculateContributions mode false data).map (fun m => m.lines)).sum = data.length)
    ∧ (∀ (mode : String) (data : List BlameLineData),
        ((calculateContributions mode true data).map (fun m => m.lines)).sum
          = data.length - (data.filter (fun ld => isBlankLine ld.content)).length)
    ∧ (∀ (mode : String) (ign : Bool), calculateContributions mode ign [] = []) := by
  refine ⟨?_, ?_, ?_⟩
  · intro mode data
    rw [calc_sum_lines]
    simp
  · intro mode data
    rw [calc_sum_lines]
    simp only [Bool.true_and]
    exact length_filter_not data
  · intro mode ign
    rfl

/-! Rounding bridge and bound. -/

theorem jsRoundPct_eq_round (c t : Nat) (ht : 0 < t) :
    ((jsRoundPct c t : Nat) : Int) = round ((100 * (c : ℚ)) / (t : ℚ)) := by
  have htq : (0 : ℚ) < (t : ℚ) := by exact_mod_cast ht
  rw [round_eq]
  have harg : (100 * (c : ℚ)) / (t : ℚ) + 1 / 2
      = ((200 * c + t : ℕ) : ℚ) / ((2 * t : ℕ) : ℚ) := by
    push_cast
    field_simp
    ring
  rw [harg, ← Int.natCast_floor_eq_floor (by positivity), Nat.floor_div_eq_div]
  rfl

theorem jsRoundPct_le_100 (c t : Nat) (ht : 0 < t) (hc : c ≤ t) :
    jsRoundPct c t ≤ 100 := by
  unfold jsRoundPct
  rw [Nat.div_le_iff_le_mul_add_pred (by omega)]
  omega

theorem sum_cVal_calc (mode : String) (ign : Bool) (data : List BlameLineData) :
    ((calculateContributions mode ign data).map (cVal mode)).sum
      = totalValueOf mode ign data := by
  by_cases hemp : data.isEmpty = true
  · have h0 : data = [] := by
      cases data
      · rfl
      · exact absurd hemp (by simp)
    subst h0
    simp [calculateContributions, totalValueOf, authorStatsOf]
  · rw [calc_eq mode ign data (Bool.not_eq_true _ |>.mp hemp)]
    rw [((List.perm_insertionSort (contribLE mode) _).map (cVal mode)).sum_eq,
        List.map_map]
    show ((authorStatsOf ign data).map
        (fun s => if mode = "characters" then s.2.2 else s.2.1)).sum = _
    by_cases hm : mode = "characters" <;> simp [totalValueOf, hm]

theorem cv_le_total (mode : String) (ign : Bool) (data : List BlameLineData)
    (s : String × Nat × Nat) (hs : s ∈ authorStatsOf ign data) :
    (if mode = "characters" then s.2.2 else s.2.1) ≤ totalValueOf mode ign data := by
  by_cases hm : mode = "characters"
  · simp only [totalValueOf, hm, if_pos]
    exact List.single_le_sum (fun x _ => Nat.zero_le x) _
      (List.mem_map_of_mem (fun s => s.2.2) hs)
  · simp only [totalValueOf, hm, if_neg, ite_false]
    exact List.single_le_sum (fun x _ => Nat.zero_le x) _
      (List.mem_map_of_mem (fun s => s.2.1) hs)

/-! Claim C6. -/

/-- C6: every aggregated entry has percentage equal to the rounded
value of 100 times its active count value over the grand total of
active count values (0 when the total is 0), and every percentage lies
between 0 and 100; percentages are natural numbers, so non-negativity
is carried by the type. -/
theorem metrics_percentage (mode : String) (ign : Bool) (data : List BlameLineData)
    (m : ContributorMetrics) (hm : m ∈ calculateContributions mode ign data) :
    ((m.percentage : Int) =
        if 0 < ((calculateContributions mode ign data).map (cVal mode)).sum
        then round ((100 * (cVal mode m : ℚ)) /
               ((((calculateContributions mode ign data).map (cVal mode)).sum : Nat) : ℚ))
        else 0)
    ∧ m.percentage ≤ 100 := by
  have hne : data.isEmpty = false := by
    by_contra hcontra
    rw [Bool.not_eq_false] at hcontra
    have hnil : calculateContributions mode ign data = [] := by
      unfold calculateContributions
      rw [hcontra]
      rfl
    rw [hnil] at hm
    exact absurd hm (List.not_mem_nil m)
  rw [calc_eq mode ign data hne] at hm
  rw [List.mem_insertionSort] at hm
  obtain ⟨s, hs, rfl⟩ := List.mem_map.1 hm
  rw [sum_cVal_calc]
  constructor
  · by_cases hT : 0 < totalValueOf mode ign data
    · rw [if_pos hT, if_pos hT]
      exact jsRoundPct_eq_round _ _ hT
    · rw [if_neg hT, if_neg hT]
      rfl
  · by_cases hT : 0 < totalValueOf mode ign data
    · show (if 0 < totalValueOf mode ign data
          then jsRoundPct (if mode = "characters" then s.2.2 else s.2.1)
                 (totalValueOf mode ign data)
          else 0) ≤ 100
      rw [if_pos hT]
      exact jsRoundPct_le_100 _ _ hT (cv_le_total mode ign data s hs)
    · show (if 0 < totalValueOf mode ign data
          then jsRoundPct (if mode = "characters" then s.2.2 else s.2.1)
                 (totalValueOf mode ign data)
          else 0) ≤ 100
      rw [if_neg hT]
      exact Nat.zero_le 100

/-- Witness for metrics_percentage at a one-record input. -/
theorem metrics_percentage_witness :
    ((({ author := "A", lines := 1, characters := 1, percentage := 100 } :
          ContributorMetrics).percentage : Int) =
        if 0 < ((calculateContributions "lines" false
              [{ author := "A", lineNumber := 1, content := "x" }]).map (cVal "lines")).sum
        then round ((100 * (cVal "lines"
               { author := "A", lines := 1, characters := 1, percentage := 100 } : ℚ)) /
               ((((calculateContributions "lines" false
                 [{ author := "A", lineNumber := 1, content := "x" }]).map
                    (cVal "lines")).sum : Nat) : ℚ))
        else 0)
    ∧ ({ author := "A", lines := 1, characters := 1, percentage := 100 } :
        ContributorMetrics).percentage ≤ 100 :=
  metrics_percentage "lines" false [{ author := "A", lineNumber := 1, content := "x" }]
    { author := "A", lines := 1, characters := 1, percentage := 100 } (by decide)

/-! Claim C7. -/

/-- C7: the aggregated output is sorted in descending order of the
active countMode count value, and the concrete scenario of three
Alice lines against one Bob line under countMode lines ranks Alice
first at 75 percent and Bob second at 25 percent. -/
theorem metrics_sorted :
    (∀ (mode : String) (ign : Bool) (data : List BlameLineData),
        List.Sorted (contribLE mode) (calculateContributions mode ign data))
    ∧ calculateContributions "lines" false
        [{ author := "Alice", lineNumber := 1, content := "a" },
         { author := "Alice", lineNumber := 2, content := "b" },
         { author := "Alice", lineNumber := 3, content := "c" },
         { author := "Bob", lineNumber := 4, content := "d" }]
      = [{ author := "Alice", lines := 3, characters := 3, percentage := 75 },
         { author := "Bob", lines := 1, characters := 1, percentage := 25 }] := by
  constructor
  · intro mode ign data
    unfold calculateContributions
    split
    · exact List.sorted_nil
    · exact List.sorted_insertionSort (contribLE mode) _
  · decide

/-! Claim C2. -/

/-- C2 (counterexample): the claim that a second run with identical
path and content and no intervening invalidate is always served from
the cache with no second git blame invocation is false: here the
pipeline runs twice on the identical request, the second time 30001
milliseconds later, which exceeds the stored time-to-live, so the
lookup evicts the expired entry, misses, and git blame is invoked a
second time. -/
theorem pipeline_idempotent_counterexample :
    defaultTTL < (30001 : Int) - 0
    ∧ (updateContributors (fun _ => "h")
        { isInRepo := true, stat := none, blameOutput := "", countMode := "lines",
          ignoreBlankLines := false, now := 30001 } { maxFileSizeKB := 2048 }
        (updateContributors (fun _ => "h")
          { isInRepo := true, stat := none, blameOutput := "", countMode := "lines",
            ignoreBlankLines := false, now := 0 } { maxFileSizeKB := 2048 }
          [] "f" "x").cache "f" "x").historyCalls = 1 := by
  constructor
  · decide
  · rfl

/-- C2 (amended): running the pipeline twice with identical path and
content, with no intervening invalidate, unchanged stat metadata, and
the second run no later than the stored time-to-live after the first,
yields the identical outcome on the second run, the second run being
served from the cache with no second git blame invocation; the first
run is a cache miss for the fingerprint, so it performs the single
invocation. After the time-to-live has expired, or after a metadata
change to the fingerprint, the code recomputes and invokes git blame
again. -/
theorem pipeline_idempotent (md5hex : String → String) (env1 env2 : Env) (cfg : Config)
    (cache0 : Cache) (filePath fileContent : String)
    (hrepo1 : env1.isInRepo = true) (hrepo2 : env2.isInRepo = true)
    (hsize : fileContent.utf8ByteSize ≤ cfg.maxFileSizeKB * 1024)
    (hstat : env2.stat = env1.stat)
    (hmiss : (cacheGet cache0 (getCacheKey md5hex env1.stat filePath fileContent)
        env1.now).1 = none)
    (ht1 : env1.now ≤ env2.now)
    (ht2 : env2.now - env1.now ≤ defaultTTL) :
    (updateContributors md5hex env2 cfg
        (updateContributors md5hex env1 cfg cache0 filePath fileContent).cache
        filePath fileContent).outcome
      = (updateContributors md5hex env1 cfg cache0 filePath fileContent).outcome
    ∧ (updateContributors md5hex env2 cfg
        (updateContributors md5hex env1 cfg cache0 filePath fileContent).cache
        filePath fileContent).historyCalls = 0 := by
  have hns : ¬ (cfg.maxFileSizeKB * 1024 < fileContent.utf8ByteSize) := by omega
  have hlt : ¬ (defaultTTL < env2.now - env1.now) := by
    simp only [defaultTTL] at ht2 ⊢
    omega
  rcases hg : cacheGet cache0 (getCacheKey md5hex env1.stat filePath fileContent) env1.now
    with ⟨o, cache2⟩
  rw [hg] at hmiss
  dsimp only at hmiss
  subst hmiss
  have hr1 : updateContributors md5hex env1 cfg cache0 filePath fileContent =
      { outcome := .metrics (calculateContributions env1.countMode env1.ignoreBlankLines
          (parseBlameOutput env1.blameOutput fileContent)),
        cache := cacheSet cache2 (getCacheKey md5hex env1.stat filePath fileContent)
          (calculateContributions env1.countMode env1.ignoreBlankLines
            (parseBlameOutput env1.blameOutput fileContent)) defaultTTL env1.now,
        historyCalls := 1 } := by
    unfold updateContributors
    rw [if_neg hns, hrepo1]
    simp only [Bool.not_true, Bool.false_eq_true, if_false]
    rw [hg]
  have hfind : mapFind
      (cacheSet cache2 (getCacheKey md5hex env1.stat filePath fileContent)
        (calculateContributions env1.countMode env1.ignoreBlankLines
          (parseBlameOutput env1.blameOutput fileContent)) defaultTTL env1.now)
      (getCacheKey md5hex env1.stat filePath fileContent) =
      some { data := calculateContributions env1.countMode env1.ignoreBlankLines
               (parseBlameOutput env1.blameOutput fileContent),
             timestamp := env1.now, ttl := defaultTTL } :=
    mapFind_cacheSet_self _ _ _ _ _
  have hget2 : cacheGet
      (cacheSet cache2 (getCacheKey md5hex env1.stat filePath fileContent)
        (calculateContributions env1.countMode env1.ignoreBlankLines
          (parseBlameOutput env1.blameOutput fileContent)) defaultTTL env1.now)
      (getCacheKey md5hex env1.stat filePath fileContent) env2.now
      = (some (calculateContributions env1.countMode env1.ignoreBlankLines
            (parseBlameOutput env1.blameOutput fileContent)),
         cacheSet cache2 (getCacheKey md5hex env1.stat filePath fileContent)
          (calculateContributions env1.countMode env1.ignoreBlankLines
            (parseBlameOutput env1.blameOutput fileContent)) defaultTTL env1.now) := by
    unfold cacheGet
    rw [hfind]
    dsimp only
    rw [if_neg hlt]
  rw [hr1]
  unfold updateContributors
  rw [if_neg hns, hrepo2]
  simp only [Bool.not_true, Bool.false_eq_true, if_false]
  rw [hstat, hget2]
  exact ⟨rfl, rfl⟩

/-- Witness for pipeline_idempotent at a fully concrete request. -/
theorem pipeline_idempotent_witness :
    (updateContributors (fun _ => "h")
        { isInRepo := true, stat := none, blameOutput := "", countMode := "lines",
          ignoreBlankLines := false, now := 0 } { maxFileSizeKB := 2048 }
        (updateContributors (fun _ => "h")
          { isInRepo := true, stat := none, blameOutput := "", countMode := "lines",
            ignoreBlankLines := false, now := 0 } { maxFileSizeKB := 2048 }
          [] "f" "x").cache "f" "x").outcome
      = (updateContributors (fun _ => "h")
          { isInRepo := true, stat := none, blameOutput := "", countMode := "lines",
            ignoreBlankLines := false, now := 0 } { maxFileSizeKB := 2048 }
          [] "f" "x").outcome
    ∧ (updateContributors (fun _ => "h")
        { isInRepo := true, stat := none, blameOutput := "", countMode := "lines",
          ignoreBlankLines := false, now := 0 } { maxFileSizeKB := 2048 }
        (updateContributors (fun _ => "h")
          { isInRepo := true, stat := none, blameOutput := "", countMode := "lines",
            ignoreBlankLines := false, now := 0 } { maxFileSizeKB := 2048 }
          [] "f" "x").cache "f" "x").historyCalls = 0 :=
  pipeline_idempotent (fun _ => "h") _ _ _ [] "f" "x" rfl rfl (by decide) rfl rfl
    (by decide) (by decide)

end TopContributor
